import Mathlib

/-!
Shallow embedding of `cacher.py`: an in-process key-value cache with
per-entry expiry and periodic bucket sweeping.

The Python object state is modelled by the structure `Cacher`:
`_inner_dict` (bucket number → bucket, a bucket being key → (value, expiry))
and `_outer_dict` (key → bucket number) become association lists,
`_cleanup_period` an `Option ℚ` (Python `None` becomes `none`), and
`_start_group` an `Option ℤ` (the class attribute default `None` becomes
`none`).  Wall-clock time (`time.time()`, a float) is modelled by `ℚ` and is
passed explicitly to each operation that reads the clock.  Python
`KeyError` exceptions become the `Except` error branch, paired with the
state at the moment the exception escapes (so partial mutation before a
raise is observable, exactly as in Python).
-/

set_option autoImplicit false

namespace CacherSpec

/-- Association-list model of a Python dict, for lookups: the value bound to
the given key, if any.  All dict updates below keep at most one binding per
key, matching dict semantics. -/
def lookupA {κ α : Type} [DecidableEq κ] : List (κ × α) → κ → Option α
  | [], _ => none
  | p :: rest, k => if p.1 = k then some p.2 else lookupA rest k

/-- Model of removing key `k` from a dict (`del d[k]` / `d.pop(k)` at the
binding level): every binding of `k` is dropped, all others kept. -/
def eraseA {κ α : Type} [DecidableEq κ] (k : κ) (l : List (κ × α)) : List (κ × α) :=
  l.filter (fun p => decide (p.1 ≠ k))

/-- Model of the dict assignment `d[k] = v`: afterwards `k` is bound to `v`
and every other key keeps its previous binding. -/
def insertA {κ α : Type} [DecidableEq κ] (k : κ) (v : α) (l : List (κ × α)) : List (κ × α) :=
  (k, v) :: eraseA k l

/-- Bucket identifiers: the `int` produced by `int(x // cleanup_period)`
(`some n`), or Python `None` (`none`), which is stored as the bucket number
by `set` when the cache was constructed with `cleanup_period=None`. -/
abbrev GroupId := Option ℤ

/-- Module-level constant `DEFAULT_CLEANUP_PERIOD = 60`. -/
def DEFAULT_CLEANUP_PERIOD : ℚ := 60

/-- State of a `Cacher` instance: fields named after the Python attributes
`_inner_dict`, `_outer_dict`, `_cleanup_period` and `_start_group`. -/
structure Cacher (κ α : Type) where
  inner_dict : List (GroupId × List (κ × (α × ℚ)))
  outer_dict : List (κ × GroupId)
  cleanup_period : Option ℚ
  start_group : Option ℤ
deriving DecidableEq

/-- Python truthiness of the `cleanup_period` parameter: `None` and `0` are
falsy, every other number is truthy. -/
def periodTruthy : Option ℚ → Bool
  | none => false
  | some p => decide (p ≠ 0)

/-- Model of the expression `cleanup_period and int(x // cleanup_period)`
(used both in `set` and in `_cleanup`): the short-circuiting `and` returns
the falsy period itself (`None`, or the number `0`) when sweeping is
disabled, and otherwise the floor of `x / cleanup_period` (Python float `//`
floors, and `int` of the already-floored float is that floor). -/
def groupNum (period : Option ℚ) (x : ℚ) : GroupId :=
  match period with
  | none => none
  | some p => if p = 0 then some 0 else some ⌊x / p⌋

/-- Model of `Cacher.__init__(cleanup_period)` at clock value `now`: empty
dicts; if the period is truthy, `_start_group = int(time() // cleanup_period)`
and `_schedule_cleanup()` starts a `Timer(cleanup_period, ...)`.  The second
component is the delay of the timer started by the constructor, if any. -/
def Cacher.init (κ α : Type) (period : Option ℚ) (now : ℚ) : Cacher κ α × Option ℚ :=
  if periodTruthy period then
    ({ inner_dict := [], outer_dict := [], cleanup_period := period
     , start_group := groupNum period now }, period)
  else
    ({ inner_dict := [], outer_dict := [], cleanup_period := period
     , start_group := none }, none)

/-- Integer range `range(a, b)`: the list `a, a+1, ..., b-1` (empty when
`b ≤ a`). -/
def intRange (a b : ℤ) : List ℤ :=
  (List.range (b - a).toNat).map (fun (i : ℕ) => a + (i : ℤ))

/-- Model of `Cacher._cleanup` firing at clock value `now`:
`cur_group = cleanup_period and int(time() // cleanup_period)`; if
`cur_group > _start_group`, each bucket in `range(_start_group, cur_group)`
is deleted (the `try/except KeyError: pass` makes a missing bucket a no-op,
which `eraseA` models directly) and the cursor advances; in every case the
trailing `_schedule_cleanup()` starts a `Timer(cleanup_period, ...)`, whose
delay is the second component of the result.  The branches where the period
is falsy or `_start_group` is still `None` are unreachable (a cleanup is
only ever scheduled when the constructor saw a truthy period, which also
set `_start_group`); they are modelled as leaving the dicts unchanged. -/
def Cacher.cleanup {κ α : Type} [DecidableEq κ] (c : Cacher κ α) (now : ℚ) :
    Cacher κ α × Option ℚ :=
  match c.cleanup_period, c.start_group with
  | some p, some sg =>
    if p = 0 then (c, c.cleanup_period)
    else
      let cur := ⌊now / p⌋
      if sg < cur then
        ({ c with
           inner_dict := (intRange sg cur).foldl (fun d g => eraseA (some g) d) c.inner_dict
         , start_group := some cur }, c.cleanup_period)
      else (c, c.cleanup_period)
  | _, _ => (c, c.cleanup_period)

/-- Model of `Cacher.set(name, value, timeout)` at clock value `now`:
`expire_in = time() + timeout`; the bucket number is
`cleanup_period and int(expire_in // cleanup_period)`;
`_outer_dict[name] = group_num`; the bucket is created lazily if absent;
`group[name] = (value, expire_in)`.  (The Python default
`timeout=DEFAULT_CLEANUP_PERIOD` is `Cacher.setD` below.) -/
def Cacher.set {κ α : Type} [DecidableEq κ] (c : Cacher κ α) (now : ℚ) (name : κ)
    (value : α) (timeout : ℚ) : Cacher κ α :=
  let expire_in := now + timeout
  let group_num := groupNum c.cleanup_period expire_in
  let group := match lookupA c.inner_dict group_num with
               | some g => g
               | none => []
  { c with
    outer_dict := insertA name group_num c.outer_dict
  , inner_dict := insertA group_num (insertA name (value, expire_in) group) c.inner_dict }

/-- Model of `Cacher.set` with the `timeout` argument omitted, so that the
module-level default `DEFAULT_CLEANUP_PERIOD` applies. -/
def Cacher.setD {κ α : Type} [DecidableEq κ] (c : Cacher κ α) (now : ℚ) (name : κ)
    (value : α) : Cacher κ α :=
  c.set now name value DEFAULT_CLEANUP_PERIOD

/-- Payload of a `KeyError` escaping `get`/`delete`: either the looked-up
key (`KeyError(name)`), or a bucket number (`KeyError(group_num)`, raised
when `self._inner_dict[group_num]` finds the bucket gone). -/
inductive CacheErr (κ : Type) where
  | keyErr (name : κ)
  | groupErr (g : GroupId)
deriving DecidableEq

/-- Model of `Cacher.delete(name)`:
`group_num = self._outer_dict.pop(name)` (raising `KeyError(name)` with the
state untouched when the key is absent), then
`del self._inner_dict[group_num][name]`, whose first subscript raises
`KeyError(group_num)` and whose `del` raises `KeyError(name)` — in both
cases after the `pop` already removed the outer mapping, which is why the
state at the raise point is returned alongside the error. -/
def Cacher.delete {κ α : Type} [DecidableEq κ] (c : Cacher κ α) (name : κ) :
    Except (CacheErr κ) Unit × Cacher κ α :=
  match lookupA c.outer_dict name with
  | none => (Except.error (CacheErr.keyErr name), c)
  | some group_num =>
    let c1 : Cacher κ α := { c with outer_dict := eraseA name c.outer_dict }
    match lookupA c1.inner_dict group_num with
    | none => (Except.error (CacheErr.groupErr group_num), c1)
    | some group =>
      match lookupA group name with
      | none => (Except.error (CacheErr.keyErr name), c1)
      | some _ =>
        (Except.ok (), { c1 with inner_dict := insertA group_num (eraseA name group) c1.inner_dict })

/-- Model of `Cacher.get(name)` at clock value `now`:
`group_num = self._outer_dict[name]` (raising `KeyError(name)` if absent);
`value, expire_in = self._inner_dict[group_num][name]` (raising
`KeyError(group_num)` if the bucket is gone, `KeyError(name)` if the key is
not in the bucket); if `time() < expire_in` the value is returned, else
`self.delete(name)` runs (any exception it raises propagating with its
state) and `KeyError(name)` is raised. -/
def Cacher.get {κ α : Type} [DecidableEq κ] (c : Cacher κ α) (now : ℚ) (name : κ) :
    Except (CacheErr κ) α × Cacher κ α :=
  match lookupA c.outer_dict name with
  | none => (Except.error (CacheErr.keyErr name), c)
  | some group_num =>
    match lookupA c.inner_dict group_num with
    | none => (Except.error (CacheErr.groupErr group_num), c)
    | some group =>
      match lookupA group name with
      | none => (Except.error (CacheErr.keyErr name), c)
      | some entry =>
        if now < entry.2 then (Except.ok entry.1, c)
        else
          match c.delete name with
          | (Except.ok _, c1) => (Except.error (CacheErr.keyErr name), c1)
          | (Except.error e, c1) => (Except.error e, c1)

/-! Dict lemmas: how `lookupA` interacts with `insertA` and `eraseA`. -/

theorem lookupA_eraseA_self {κ α : Type} [DecidableEq κ] (k : κ) (l : List (κ × α)) :
    lookupA (eraseA k l) k = none := by
  induction l with
  | nil => rfl
  | cons p rest ih =>
    by_cases h : p.1 = k
    · simpa [eraseA, List.filter_cons, h] using ih
    · simpa [eraseA, List.filter_cons, h, lookupA] using ih

theorem lookupA_eraseA_ne {κ α : Type} [DecidableEq κ] {k k' : κ} (l : List (κ × α))
    (h : k' ≠ k) : lookupA (eraseA k l) k' = lookupA l k' := by
  induction l with
  | nil => rfl
  | cons p rest ih =>
    by_cases hp : p.1 = k
    · simp [eraseA, List.filter_cons, hp, lookupA, Ne.symm h] at ih ⊢
      exact ih
    · by_cases hp' : p.1 = k'
      · simp [eraseA, List.filter_cons, hp, hp', lookupA, h]
      · simp [eraseA, List.filter_cons, hp, hp', lookupA] at ih ⊢
        exact ih

theorem lookupA_insertA_self {κ α : Type} [DecidableEq κ] (k : κ) (v : α)
    (l : List (κ × α)) : lookupA (insertA k v l) k = some v := by
  simp [insertA, lookupA]

theorem lookupA_insertA_ne {κ α : Type} [DecidableEq κ] {k k' : κ} (v : α)
    (l : List (κ × α)) (h : k' ≠ k) :
    lookupA (insertA k v l) k' = lookupA l k' := by
  simp [insertA, lookupA, Ne.symm h]
  exact lookupA_eraseA_ne l h

/-! Claim theorems. -/

/-- C1: for every key, value, and timeout > 0, immediately after calling
`set(key, value, timeout)` (with no intervening time advance), `get(key)`
returns the value (and leaves the state untouched). -/
theorem round_trip {κ α : Type} [DecidableEq κ] (c : Cacher κ α) (now : ℚ) (name : κ)
    (value : α) (timeout : ℚ) (h : 0 < timeout) :
    (c.set now name value timeout).get now name
      = (Except.ok value, c.set now name value timeout) := by
  unfold Cacher.get Cacher.set
  simp only [lookupA_insertA_self]
  simp [h]

/-- Witness for C1 at a concrete input. -/
theorem round_trip_witness :
    (0:ℚ) < 1 ∧
    ((Cacher.init ℕ ℕ (some 1) 0).1.set 0 5 7 1).get 0 5
      = (Except.ok 7, (Cacher.init ℕ ℕ (some 1) 0).1.set 0 5 7 1) :=
  ⟨by simp, round_trip (Cacher.init ℕ ℕ (some 1) 0).1 0 5 7 1 (by simp)⟩

/-- C2: for every key and timeout, if the clock has advanced by at least
`timeout` since `set(key, value, timeout)` (no intervening operation), then
`get(key)` fails with `KeyError(key)` and performs the same removal as
`delete(key)`: the key is gone from the primary index and from its bucket,
even though no sweep has run. -/
theorem expiry {κ α : Type} [DecidableEq κ] (c : Cacher κ α) (t0 t1 : ℚ) (name : κ)
    (value : α) (timeout : ℚ) (h : t0 + timeout ≤ t1) :
    ((c.set t0 name value timeout).get t1 name).1 = Except.error (CacheErr.keyErr name) ∧
    ((c.set t0 name value timeout).get t1 name).2
      = ((c.set t0 name value timeout).delete name).2 ∧
    lookupA ((c.set t0 name value timeout).get t1 name).2.outer_dict name = none ∧
    (∀ grp, lookupA ((c.set t0 name value timeout).get t1 name).2.inner_dict
        (groupNum c.cleanup_period (t0 + timeout)) = some grp →
      lookupA grp name = none) := by
  have hnl : ¬ t1 < t0 + timeout := not_lt.mpr h
  unfold Cacher.get Cacher.set Cacher.delete
  simp [lookupA_insertA_self, lookupA_eraseA_self, hnl]

/-- Witness for C2 at a concrete input. -/
theorem expiry_witness :
    (0:ℚ) + 1 ≤ 1 ∧
    ((((Cacher.init ℕ ℕ (some 1) 0).1.set 0 5 7 1).get 1 5).1
        = Except.error (CacheErr.keyErr 5) ∧
      (((Cacher.init ℕ ℕ (some 1) 0).1.set 0 5 7 1).get 1 5).2
        = (((Cacher.init ℕ ℕ (some 1) 0).1.set 0 5 7 1).delete 5).2 ∧
      lookupA (((Cacher.init ℕ ℕ (some 1) 0).1.set 0 5 7 1).get 1 5).2.outer_dict 5 = none ∧
      (∀ grp, lookupA (((Cacher.init ℕ ℕ (some 1) 0).1.set 0 5 7 1).get 1 5).2.inner_dict
          (groupNum (Cacher.init ℕ ℕ (some 1) 0).1.cleanup_period ((0:ℚ) + 1)) = some grp →
        lookupA grp 5 = none)) :=
  ⟨by simp, expiry (Cacher.init ℕ ℕ (some 1) 0).1 0 1 5 7 1 (by simp)⟩

/-- C5: `delete(key)` on a key present in the primary index removes it — a
subsequent `get(key)` at any clock value fails with `KeyError(key)` — while
`delete(key)` on an absent key fails with `KeyError(key)` and leaves the
state untouched rather than silently succeeding. -/
theorem delete_semantics {κ α : Type} [DecidableEq κ] (c : Cacher κ α) (name : κ) :
    ((∃ g, lookupA c.outer_dict name = some g) →
      lookupA (c.delete name).2.outer_dict name = none ∧
      ∀ now, ((c.delete name).2.get now name).1 = Except.error (CacheErr.keyErr name)) ∧
    (lookupA c.outer_dict name = none →
      c.delete name = (Except.error (CacheErr.keyErr name), c)) := by
  constructor
  · rintro ⟨g, hg⟩
    cases hinner : lookupA c.inner_dict g with
    | none => simp [Cacher.delete, Cacher.get, hg, hinner, lookupA_eraseA_self]
    | some group =>
      cases hgrp : lookupA group name with
      | none => simp [Cacher.delete, Cacher.get, hg, hinner, hgrp, lookupA_eraseA_self]
      | some e => simp [Cacher.delete, Cacher.get, hg, hinner, hgrp, lookupA_eraseA_self]
  · intro h0
    simp [Cacher.delete, h0]

/-- Witness for C5: applying the theorem at a concrete cache holding one
key, and at a concrete absent key. -/
theorem delete_semantics_witness :
    lookupA (((Cacher.init ℕ ℕ (some 1) 0).1.set 0 5 7 1).delete 5).2.outer_dict 5 = none ∧
    (Cacher.init ℕ ℕ (some 1) 0).1.delete 9
      = (Except.error (CacheErr.keyErr 9), (Cacher.init ℕ ℕ (some 1) 0).1) :=
  ⟨((delete_semantics ((Cacher.init ℕ ℕ (some 1) 0).1.set 0 5 7 1) 5).1
      ⟨some 1, by simp [Cacher.init, Cacher.set, periodTruthy, groupNum, lookupA_insertA_self]⟩).1,
    (delete_semantics (Cacher.init ℕ ℕ (some 1) 0).1 9).2 (by simp [Cacher.init, periodTruthy, lookupA])⟩

/-- C10: a `delete(key)` failing because the key is absent from the primary
index leaves the state unchanged; but when the key is present while its
bucket is gone from the bucket store, `delete` first removes the key from
the primary index and only then raises (`KeyError(group_num)`), so the
state is mutated despite the failure. -/
theorem delete_partial_mutation {κ α : Type} [DecidableEq κ] (c : Cacher κ α) (name : κ) :
    (lookupA c.outer_dict name = none →
      c.delete name = (Except.error (CacheErr.keyErr name), c)) ∧
    (∀ g, lookupA c.outer_dict name = some g → lookupA c.inner_dict g = none →
      c.delete name
        = (Except.error (CacheErr.groupErr g),
           { c with outer_dict := eraseA name c.outer_dict })) := by
  constructor
  · intro h0
    simp [Cacher.delete, h0]
  · intro g hg hin
    simp [Cacher.delete, hg, hin]

/-- Witness for C10: an absent-key delete on a fresh cache, and a delete of
a key whose bucket was discarded by a sweep at clock 2 (interval 1). -/
theorem delete_partial_mutation_witness :
    (Cacher.init ℕ ℕ (some 1) 0).1.delete 9
      = (Except.error (CacheErr.keyErr 9), (Cacher.init ℕ ℕ (some 1) 0).1) ∧
    (((Cacher.init ℕ ℕ (some 1) 0).1.set 0 5 7 1).cleanup 2).1.delete 5
      = (Except.error (CacheErr.groupErr (some 1)),
         { (((Cacher.init ℕ ℕ (some 1) 0).1.set 0 5 7 1).cleanup 2).1 with
           outer_dict :=
             eraseA 5 (((Cacher.init ℕ ℕ (some 1) 0).1.set 0 5 7 1).cleanup 2).1.outer_dict }) :=
  ⟨(delete_partial_mutation (Cacher.init ℕ ℕ (some 1) 0).1 9).1
      (by simp [Cacher.init, periodTruthy, lookupA]),
   (delete_partial_mutation (((Cacher.init ℕ ℕ (some 1) 0).1.set 0 5 7 1).cleanup 2).1 5).2
      (some 1)
      (by simp [Cacher.init, Cacher.set, Cacher.cleanup, periodTruthy, groupNum, intRange,
        insertA, eraseA, lookupA, (by decide : List.range 2 = [0, 1])])
      (by simp [Cacher.init, Cacher.set, Cacher.cleanup, periodTruthy, groupNum, intRange,
        insertA, eraseA, lookupA, (by decide : List.range 2 = [0, 1])])⟩

/-- C6: for every key, `set(key, v1)` then `set(key, v2)` (both with the
default timeout) then `get(key)` returns `v2`; afterwards, deleting or
expiring the key removes only the single current mapping (other keys keep
their mappings) and no ghost entry from `v1`'s original bucket remains
retrievable through the public API: every later `get(key)` fails. -/
theorem overwrite {κ α : Type} [DecidableEq κ] (c : Cacher κ α) (t0 t1 : ℚ) (name : κ)
    (v1 v2 : α) :
    ((c.setD t0 name v1).setD t1 name v2).get t1 name
      = (Except.ok v2, (c.setD t0 name v1).setD t1 name v2) ∧
    (∀ k', k' ≠ name →
      lookupA ((((c.setD t0 name v1).setD t1 name v2).delete name).2).outer_dict k'
        = lookupA ((c.setD t0 name v1).setD t1 name v2).outer_dict k') ∧
    (∀ t, (((((c.setD t0 name v1).setD t1 name v2).delete name).2).get t name).1
        = Except.error (CacheErr.keyErr name)) ∧
    (∀ texp, t1 + DEFAULT_CLEANUP_PERIOD ≤ texp →
      ∀ t, (((((c.setD t0 name v1).setD t1 name v2).get texp name).2).get t name).1
          = Except.error (CacheErr.keyErr name)) := by
  refine ⟨?_, ?_, ?_, ?_⟩
  · unfold Cacher.setD Cacher.get Cacher.set
    simp only [lookupA_insertA_self]
    simp [DEFAULT_CLEANUP_PERIOD]
  · intro k' hk'
    unfold Cacher.setD Cacher.delete Cacher.set
    simp only [lookupA_insertA_self]
    simp [lookupA_eraseA_ne _ hk']
  · intro t
    unfold Cacher.setD Cacher.delete Cacher.set Cacher.get
    simp only [lookupA_insertA_self]
    simp [lookupA_eraseA_self]
  · intro texp htexp t
    have hnl : ¬ texp < t1 + DEFAULT_CLEANUP_PERIOD := not_lt.mpr htexp
    unfold Cacher.setD Cacher.get Cacher.set Cacher.delete
    simp only [lookupA_insertA_self]
    simp [hnl, lookupA_eraseA_self]

/-- Witness for C6 at concrete inputs, including the expiry arm at clock 60
and the untouched distinct key 9. -/
theorem overwrite_witness :
    (((Cacher.init ℕ ℕ (some 1) 0).1.setD 0 5 7).setD 0 5 8).get 0 5
      = (Except.ok 8, ((Cacher.init ℕ ℕ (some 1) 0).1.setD 0 5 7).setD 0 5 8) ∧
    lookupA (((((Cacher.init ℕ ℕ (some 1) 0).1.setD 0 5 7).setD 0 5 8).delete 5).2).outer_dict 9
      = lookupA (((Cacher.init ℕ ℕ (some 1) 0).1.setD 0 5 7).setD 0 5 8).outer_dict 9 ∧
    ((((((Cacher.init ℕ ℕ (some 1) 0).1.setD 0 5 7).setD 0 5 8).delete 5).2).get 3 5).1
      = Except.error (CacheErr.keyErr 5) ∧
    ((((((Cacher.init ℕ ℕ (some 1) 0).1.setD 0 5 7).setD 0 5 8).get 60 5).2).get 3 5).1
      = Except.error (CacheErr.keyErr 5) :=
  ⟨((overwrite (Cacher.init ℕ ℕ (some 1) 0).1 0 0 5 7 8)).1,
   ((overwrite (Cacher.init ℕ ℕ (some 1) 0).1 0 0 5 7 8)).2.1 9 (by decide),
   ((overwrite (Cacher.init ℕ ℕ (some 1) 0).1 0 0 5 7 8)).2.2.1 3,
   ((overwrite (Cacher.init ℕ ℕ (some 1) 0).1 0 0 5 7 8)).2.2.2 60
     (by simp [DEFAULT_CLEANUP_PERIOD]) 3⟩

/-! Helper lemmas: no operation other than `_cleanup` touches `_start_group`. -/

theorem set_start_group {κ α : Type} [DecidableEq κ] (c : Cacher κ α) (now : ℚ) (name : κ)
    (value : α) (timeout : ℚ) :
    (c.set now name value timeout).start_group = c.start_group := by
  simp [Cacher.set]

theorem delete_start_group {κ α : Type} [DecidableEq κ] (c : Cacher κ α) (name : κ) :
    ((c.delete name).2).start_group = c.start_group := by
  cases h1 : lookupA c.outer_dict name with
  | none => simp [Cacher.delete, h1]
  | some g =>
    cases h2 : lookupA c.inner_dict g with
    | none => simp [Cacher.delete, h1, h2]
    | some grp =>
      cases h3 : lookupA grp name with
      | none => simp [Cacher.delete, h1, h2, h3]
      | some e => simp [Cacher.delete, h1, h2, h3]

theorem get_start_group {κ α : Type} [DecidableEq κ] (c : Cacher κ α) (now : ℚ) (name : κ) :
    ((c.get now name).2).start_group = c.start_group := by
  cases h1 : lookupA c.outer_dict name with
  | none => simp [Cacher.get, h1]
  | some g =>
    cases h2 : lookupA c.inner_dict g with
    | none => simp [Cacher.get, h1, h2]
    | some grp =>
      cases h3 : lookupA grp name with
      | none => simp [Cacher.get, h1, h2, h3]
      | some e =>
        by_cases h4 : now < e.2
        · simp [Cacher.get, h1, h2, h3, h4]
        · cases hd : c.delete name with
          | mk r c1 =>
            have hsg : c1.start_group = c.start_group := by
              have := delete_start_group c name
              rw [hd] at this
              exact this
            cases r with
            | ok u => simp [Cacher.get, h1, h2, h3, h4, hd, hsg]
            | error e => simp [Cacher.get, h1, h2, h3, h4, hd, hsg]

/-- C9: the sweep cursor never decreases: it is initialized at construction
as the floor of `now / interval`; a cleanup firing only keeps it or raises
it (and keeps it `None` when it was `None`); and `set`, `get` and `delete`
leave it unchanged. -/
theorem sweep_cursor_monotone {κ α : Type} [DecidableEq κ] (c : Cacher κ α)
    (p now t0 t : ℚ) (hp : p ≠ 0) (name : κ) (value : α) (timeout : ℚ) :
    (Cacher.init κ α (some p) now).1.start_group = some ⌊now / p⌋ ∧
    (∀ sg, c.start_group = some sg →
      ∃ sg', ((c.cleanup t).1).start_group = some sg' ∧ sg ≤ sg') ∧
    (c.start_group = none → ((c.cleanup t).1).start_group = none) ∧
    (c.set t0 name value timeout).start_group = c.start_group ∧
    ((c.get t0 name).2).start_group = c.start_group ∧
    ((c.delete name).2).start_group = c.start_group := by
  refine ⟨?_, ?_, ?_, set_start_group c t0 name value timeout,
    get_start_group c t0 name, delete_start_group c name⟩
  · simp [Cacher.init, periodTruthy, groupNum, hp]
  · intro sg hsg
    cases hper : c.cleanup_period with
    | none => exact ⟨sg, by simp [Cacher.cleanup, hper, hsg], le_refl sg⟩
    | some q =>
      by_cases hq : q = 0
      · exact ⟨sg, by simp [Cacher.cleanup, hper, hsg, hq], le_refl sg⟩
      · by_cases hlt : sg < ⌊t / q⌋
        · exact ⟨⌊t / q⌋, by simp [Cacher.cleanup, hper, hsg, hq, hlt], le_of_lt hlt⟩
        · exact ⟨sg, by simp [Cacher.cleanup, hper, hsg, hq, hlt], le_refl sg⟩
  · intro hsg
    cases hper : c.cleanup_period with
    | none => simp [Cacher.cleanup, hper, hsg]
    | some q => simp [Cacher.cleanup, hper, hsg]

/-- Witness for C9 at a concrete cache: the cursor starts at 0, rises to 2
after a cleanup at clock 2, and ordinary operations keep it fixed. -/
theorem sweep_cursor_monotone_witness :
    (Cacher.init ℕ ℕ (some 1) 0).1.start_group = some ⌊(0:ℚ) / 1⌋ ∧
    (∃ sg', (((Cacher.init ℕ ℕ (some 1) 0).1.cleanup 2).1).start_group = some sg' ∧
      0 ≤ sg') ∧
    ((Cacher.init ℕ ℕ (some 1) 0).1.set 0 5 7 1).start_group
      = (Cacher.init ℕ ℕ (some 1) 0).1.start_group :=
  ⟨((sweep_cursor_monotone (Cacher.init ℕ ℕ (some 1) 0).1 1 0 0 2 (by simp) 5 7 1)).1,
   ((sweep_cursor_monotone (Cacher.init ℕ ℕ (some 1) 0).1 1 0 0 2 (by simp) 5 7 1)).2.1 0
     (by simp [Cacher.init, periodTruthy, groupNum]),
   ((sweep_cursor_monotone (Cacher.init ℕ ℕ (some 1) 0).1 1 0 0 2 (by simp) 5 7 1)).2.2.2.1⟩

/-! Helper lemmas for the sweeper: membership in `range(a, b)` and lookups
after the bulk-discard fold. -/

theorem mem_intRange {a b g : ℤ} : g ∈ intRange a b ↔ a ≤ g ∧ g < b := by
  unfold intRange
  simp only [List.mem_map, List.mem_range]
  constructor
  · rintro ⟨i, hi, rfl⟩
    omega
  · rintro ⟨h1, h2⟩
    exact ⟨(g - a).toNat, by omega, by omega⟩

theorem foldl_eraseA_lookup_none {β : Type} (l : List ℤ) :
    ∀ (d : List (GroupId × β)) (gid : GroupId), lookupA d gid = none →
      lookupA (l.foldl (fun d g => eraseA (some g) d) d) gid = none := by
  induction l with
  | nil =>
    intro d gid h
    simpa using h
  | cons a as ih =>
    intro d gid h
    rw [List.foldl_cons]
    apply ih
    by_cases hg : gid = some a
    · subst hg
      exact lookupA_eraseA_self _ _
    · rw [lookupA_eraseA_ne _ hg]
      exact h

theorem foldl_eraseA_lookup_mem {β : Type} (l : List ℤ) :
    ∀ (d : List (GroupId × β)) (g : ℤ), g ∈ l →
      lookupA (l.foldl (fun d g => eraseA (some g) d) d) (some g) = none := by
  induction l with
  | nil =>
    intro d g h
    cases h
  | cons a as ih =>
    intro d g h
    rw [List.foldl_cons]
    rcases List.mem_cons.mp h with h1 | h2
    · subst h1
      exact foldl_eraseA_lookup_none as _ _ (lookupA_eraseA_self _ _)
    · exact ih _ g h2

theorem foldl_eraseA_lookup_not_mem {β : Type} (l : List ℤ) :
    ∀ (d : List (GroupId × β)) (gid : GroupId), (∀ g ∈ l, gid ≠ some g) →
      lookupA (l.foldl (fun d g => eraseA (some g) d) d) gid = lookupA d gid := by
  induction l with
  | nil =>
    intro d gid h
    rfl
  | cons a as ih =>
    intro d gid h
    rw [List.foldl_cons, ih _ _ (fun g hg => h g (List.mem_cons_of_mem a hg)),
      lookupA_eraseA_ne _ (h a (List.mem_cons_self a as))]

/-- C4: when the sweeper fires at clock `now` on a cache with interval `p`
and cursor `sg`, it always starts a fresh timer with delay `p`; when
`floor(now / p)` exceeds the cursor it removes every bucket numbered in
`[sg, floor(now / p))` from the bucket store (bucket removal is a total
no-op-tolerant operation, so absent buckets surface no error), leaves every
other bucket and the whole primary index untouched, and sets the cursor to
`floor(now / p)`; otherwise it changes nothing. -/
theorem sweeper_fires {κ α : Type} [DecidableEq κ] (c : Cacher κ α) (p : ℚ) (sg : ℤ)
    (now : ℚ) (hp : p ≠ 0) (hper : c.cleanup_period = some p)
    (hsg : c.start_group = some sg) :
    (c.cleanup now).2 = some p ∧
    (sg < ⌊now / p⌋ →
      ((c.cleanup now).1.start_group = some ⌊now / p⌋ ∧
       (∀ g : ℤ, sg ≤ g → g < ⌊now / p⌋ →
         lookupA (c.cleanup now).1.inner_dict (some g) = none) ∧
       (∀ gid : GroupId, (∀ g : ℤ, gid = some g → g < sg ∨ ⌊now / p⌋ ≤ g) →
         lookupA (c.cleanup now).1.inner_dict gid = lookupA c.inner_dict gid) ∧
       (c.cleanup now).1.outer_dict = c.outer_dict)) ∧
    (⌊now / p⌋ ≤ sg → (c.cleanup now).1 = c) := by
  refine ⟨?_, ?_, ?_⟩
  · simp only [Cacher.cleanup, hper, hsg]
    split_ifs <;> rfl
  · intro hlt
    refine ⟨by simp [Cacher.cleanup, hper, hsg, hp, hlt], ?_, ?_, ?_⟩
    · intro g hg1 hg2
      have hmem := foldl_eraseA_lookup_mem (intRange sg ⌊now / p⌋) c.inner_dict g
        (mem_intRange.mpr ⟨hg1, hg2⟩)
      simp [Cacher.cleanup, hper, hsg, hp, hlt, hmem]
    · intro gid hgid
      have hnot : ∀ g ∈ intRange sg ⌊now / p⌋, gid ≠ some g := by
        intro g hg hcontra
        rcases mem_intRange.mp hg with ⟨h1, h2⟩
        rcases hgid g hcontra with h3 | h3
        · omega
        · omega
      have hkeep := foldl_eraseA_lookup_not_mem (intRange sg ⌊now / p⌋) c.inner_dict gid hnot
      simp [Cacher.cleanup, hper, hsg, hp, hlt, hkeep]
    · simp [Cacher.cleanup, hper, hsg, hp, hlt]
  · intro hge
    have hnlt : ¬ sg < ⌊now / p⌋ := not_lt.mpr hge
    simp [Cacher.cleanup, hper, hsg, hp, hnlt]

/-- Witness for C4: interval 1, cursor 0, firing at clock 2 discards
buckets 0 and 1, keeps bucket 5 and the index, moves the cursor to 2, and
reschedules with delay 1. -/
theorem sweeper_fires_witness :
    ((((Cacher.init ℕ ℕ (some 1) 0).1.set 0 5 7 1).cleanup 2).2 = some 1 ∧
      (((Cacher.init ℕ ℕ (some 1) 0).1.set 0 5 7 1).cleanup 2).1.start_group
        = some ⌊(2:ℚ) / 1⌋ ∧
      lookupA ((((Cacher.init ℕ ℕ (some 1) 0).1.set 0 5 7 1).cleanup 2).1).inner_dict (some 1)
        = none ∧
      lookupA ((((Cacher.init ℕ ℕ (some 1) 0).1.set 0 5 7 1).cleanup 2).1).inner_dict (some 5)
        = lookupA ((Cacher.init ℕ ℕ (some 1) 0).1.set 0 5 7 1).inner_dict (some 5) ∧
      ((((Cacher.init ℕ ℕ (some 1) 0).1.set 0 5 7 1).cleanup 2).1).outer_dict
        = ((Cacher.init ℕ ℕ (some 1) 0).1.set 0 5 7 1).outer_dict) := by
  have hper : ((Cacher.init ℕ ℕ (some 1) 0).1.set 0 5 7 1).cleanup_period = some 1 := by
    simp [Cacher.init, Cacher.set, periodTruthy]
  have hsg : ((Cacher.init ℕ ℕ (some 1) 0).1.set 0 5 7 1).start_group = some 0 := by
    simp [Cacher.init, Cacher.set, periodTruthy, groupNum]
  have h := sweeper_fires ((Cacher.init ℕ ℕ (some 1) 0).1.set 0 5 7 1) 1 0 2
    (by simp) hper hsg
  have hfl : (0:ℤ) < ⌊(2:ℚ) / 1⌋ := by simp
  rcases h with ⟨h1, h2, _⟩
  rcases h2 hfl with ⟨h3, h4, h5, h6⟩
  have hout : ∀ g : ℤ, (some 5 : GroupId) = some g → g < 0 ∨ ⌊(2:ℚ) / 1⌋ ≤ g := by
    intro g hg
    simp only [Option.some.injEq] at hg
    right
    subst hg
    simp
  exact ⟨h1, h3, h4 1 (by simp) (by simp), h5 (some 5) hout, h6⟩

/-- C7: with sweeping disabled (`cleanup_period` of `None` or `0`), the
constructor starts no timer; every `set` assigns the one fixed sentinel
bucket number (`groupNum period 0`, i.e. `None` resp. `0`, independent of
the expiry instant); and expiry is still enforced by the lazy per-entry
check in `get`, however far the clock advances. -/
theorem sweeper_disabled {κ α : Type} [DecidableEq κ] (c : Cacher κ α)
    (period : Option ℚ) (hdis : period = none ∨ period = some 0)
    (hc : c.cleanup_period = period) (now t0 t1 t : ℚ) (name : κ) (value : α)
    (timeout : ℚ) :
    (Cacher.init κ α period now).2 = none ∧
    groupNum period t = groupNum period 0 ∧
    lookupA (c.set t0 name value timeout).outer_dict name = some (groupNum period 0) ∧
    (t1 < t0 + timeout →
      (c.set t0 name value timeout).get t1 name
        = (Except.ok value, c.set t0 name value timeout)) ∧
    (t0 + timeout ≤ t1 →
      ((c.set t0 name value timeout).get t1 name).1
        = Except.error (CacheErr.keyErr name)) := by
  have hconst : ∀ x : ℚ, groupNum period x = groupNum period 0 := by
    rcases hdis with h | h <;> subst h <;> intro x <;> simp [groupNum]
  refine ⟨?_, hconst t, ?_, ?_, ?_⟩
  · rcases hdis with h | h <;> subst h <;> simp [Cacher.init, periodTruthy]
  · unfold Cacher.set
    simp only [lookupA_insertA_self, hc, hconst]
  · intro hlt
    unfold Cacher.get Cacher.set
    simp only [lookupA_insertA_self]
    simp [hlt]
  · intro hge
    have hnl : ¬ t1 < t0 + timeout := not_lt.mpr hge
    unfold Cacher.get Cacher.set Cacher.delete
    simp only [lookupA_insertA_self]
    simp [hnl]

/-- Witness for C7 on a cache built with `cleanup_period=0`: no timer, the
sentinel bucket `0` for a far-future expiry, and a hit at clock 0 plus a
miss at the far-future clock 1000000 for the same one-second entry. -/
theorem sweeper_disabled_witness :
    (Cacher.init ℕ ℕ (some 0) 0).2 = none ∧
    groupNum (some 0) 1000000 = groupNum (some 0) 0 ∧
    lookupA ((Cacher.init ℕ ℕ (some 0) 0).1.set 0 5 7 1).outer_dict 5
      = some (groupNum (some 0) 0) ∧
    ((Cacher.init ℕ ℕ (some 0) 0).1.set 0 5 7 1).get 0 5
      = (Except.ok 7, (Cacher.init ℕ ℕ (some 0) 0).1.set 0 5 7 1) ∧
    (((Cacher.init ℕ ℕ (some 0) 0).1.set 0 5 7 1).get 1000000 5).1
      = Except.error (CacheErr.keyErr 5) := by
  have h := sweeper_disabled (Cacher.init ℕ ℕ (some 0) 0).1 (some 0) (Or.inr rfl)
    (by simp [Cacher.init, periodTruthy]) 0 0 0 1000000 5 7 1
  have h' := sweeper_disabled (Cacher.init ℕ ℕ (some 0) 0).1 (some 0) (Or.inr rfl)
    (by simp [Cacher.init, periodTruthy]) 0 0 1000000 1000000 5 7 1
  exact ⟨h.1, h'.2.1, h.2.2.1, h.2.2.2.1 (by simp), h'.2.2.2.2 (by simp)⟩

/-- Counterexample to C3 as stated: on a cache with interval 1, `set(5,7,1)`
puts key 5 in bucket 1; re-`set(5,8,5)` maps key 5 to bucket 5 but leaves
bucket 1's entry for key 5 in place, so a bucket holds an entry for a key
that the primary index maps to a different bucket, and the old
mapping/entry was not removed first. -/
theorem index_bucket_invariant_counterexample :
    lookupA (((Cacher.init ℕ ℕ (some 1) 0).1.set 0 5 7 1).set 0 5 8 5).outer_dict 5
      = some (some 5) ∧
    (∃ grp, lookupA (((Cacher.init ℕ ℕ (some 1) 0).1.set 0 5 7 1).set 0 5 8 5).inner_dict
          (some 1) = some grp ∧
        lookupA grp 5 = some (7, 1)) ∧
    (some (1:ℤ) : GroupId) ≠ some 5 := by
  refine ⟨?_, ⟨[(5, (7, 1))], ?_, ?_⟩, by decide⟩ <;>
    simp [Cacher.init, Cacher.set, periodTruthy, groupNum, insertA, eraseA, lookupA]

/-- C3 amended: `set` establishes the primary-index mapping and the bucket
entry together for the key being set, and a `delete` of a key whose mapping
and entry are intact removes both together; but `set` leaves every bucket
other than its target untouched, so re-setting a key whose new bucket
differs does not remove the old bucket's entry — the no-orphan (converse)
direction of the claimed invariant fails. -/
theorem index_bucket_pairing {κ α : Type} [DecidableEq κ] (c : Cacher κ α) (now : ℚ)
    (name : κ) (value : α) (timeout : ℚ) :
    (lookupA (c.set now name value timeout).outer_dict name
        = some (groupNum c.cleanup_period (now + timeout)) ∧
      ∃ grp, lookupA (c.set now name value timeout).inner_dict
            (groupNum c.cleanup_period (now + timeout)) = some grp ∧
          lookupA grp name = some (value, now + timeout)) ∧
    (∀ g grp e, lookupA c.outer_dict name = some g →
      lookupA c.inner_dict g = some grp → lookupA grp name = some e →
      (c.delete name).1 = Except.ok () ∧
      lookupA (c.delete name).2.outer_dict name = none ∧
      lookupA (c.delete name).2.inner_dict g = some (eraseA name grp)) ∧
    (∀ gid, gid ≠ groupNum c.cleanup_period (now + timeout) →
      lookupA (c.set now name value timeout).inner_dict gid = lookupA c.inner_dict gid) := by
  refine ⟨⟨?_, ?_⟩, ?_, ?_⟩
  · unfold Cacher.set
    simp [lookupA_insertA_self]
  · unfold Cacher.set
    refine ⟨_, lookupA_insertA_self _ _ _, lookupA_insertA_self _ _ _⟩
  · intro g grp e hg hgrp he
    simp [Cacher.delete, hg, hgrp, he, lookupA_eraseA_self, lookupA_insertA_self]
  · intro gid hgid
    unfold Cacher.set
    exact lookupA_insertA_ne _ _ hgid

/-- Witness for the amended C3: the pairing after a fresh `set`, a clean
`delete` of it, and the untouched unrelated bucket 3 on the same cache. -/
theorem index_bucket_pairing_witness :
    (lookupA ((Cacher.init ℕ ℕ (some 1) 0).1.set 0 5 7 1).outer_dict 5
        = some (groupNum (Cacher.init ℕ ℕ (some 1) 0).1.cleanup_period ((0:ℚ) + 1)) ∧
      ∃ grp, lookupA ((Cacher.init ℕ ℕ (some 1) 0).1.set 0 5 7 1).inner_dict
            (groupNum (Cacher.init ℕ ℕ (some 1) 0).1.cleanup_period ((0:ℚ) + 1)) = some grp ∧
          lookupA grp 5 = some (7, (0:ℚ) + 1)) ∧
    lookupA (((Cacher.init ℕ ℕ (some 1) 0).1.set 0 5 7 1).delete 5).2.outer_dict 5 = none ∧
    lookupA ((Cacher.init ℕ ℕ (some 1) 0).1.set 0 5 7 1).inner_dict (some 3)
      = lookupA (Cacher.init ℕ ℕ (some 1) 0).1.inner_dict (some 3) := by
  have h0 := index_bucket_pairing (Cacher.init ℕ ℕ (some 1) 0).1 0 5 7 1
  have h1 := index_bucket_pairing ((Cacher.init ℕ ℕ (some 1) 0).1.set 0 5 7 1) 0 5 7 1
  refine ⟨h0.1, ?_, ?_⟩
  · refine ((h1.2.1 (some 1) [(5, (7, 1))] (7, 1) ?_ ?_ ?_).2.1) <;>
      simp [Cacher.init, Cacher.set, periodTruthy, groupNum, insertA, eraseA, lookupA]
  · refine h0.2.2 (some 3) ?_
    simp [Cacher.init, periodTruthy, groupNum]

/-- Counterexample to C8 as stated: after the sweep at clock 2 discards
bucket 1, `get(5)` on the dangling key 5 raises a `KeyError` carrying the
bucket number 1, not the offending key 5. -/
theorem notfound_key_payload_counterexample :
    ((((Cacher.init ℕ ℕ (some 1) 0).1.set 0 5 7 1).cleanup 2).1.get 2 5).1
      = Except.error (CacheErr.groupErr (some 1)) ∧
    (CacheErr.groupErr (some 1) : CacheErr ℕ) ≠ CacheErr.keyErr 5 := by
  constructor
  · simp [Cacher.init, Cacher.set, Cacher.cleanup, Cacher.get, periodTruthy, groupNum,
      intRange, insertA, eraseA, lookupA, (by decide : List.range 2 = [0, 1])]
  · decide

/-- C8 amended: the `KeyError` raised by `get`/`delete` on a key absent
from the primary index, and by `get` on a present key whose entry has
expired (bucket intact), carries the offending key; but on a key whose
mapping survives while its bucket was bulk-discarded by the sweeper, `get`
and `delete` raise a `KeyError` carrying the bucket number instead of the
key (they still fail with a `KeyError` rather than crash). -/
theorem notfound_payload {κ α : Type} [DecidableEq κ] (c : Cacher κ α) (now : ℚ)
    (name : κ) :
    (lookupA c.outer_dict name = none →
      (c.get now name).1 = Except.error (CacheErr.keyErr name) ∧
      (c.delete name).1 = Except.error (CacheErr.keyErr name)) ∧
    (∀ g grp e, lookupA c.outer_dict name = some g →
      lookupA c.inner_dict g = some grp → lookupA grp name = some e → e.2 ≤ now →
      (c.get now name).1 = Except.error (CacheErr.keyErr name)) ∧
    (∀ g, lookupA c.outer_dict name = some g → lookupA c.inner_dict g = none →
      (c.get now name).1 = Except.error (CacheErr.groupErr g) ∧
      (c.delete name).1 = Except.error (CacheErr.groupErr g)) := by
  refine ⟨?_, ?_, ?_⟩
  · intro h0
    exact ⟨by simp [Cacher.get, h0], by simp [Cacher.delete, h0]⟩
  · intro g grp e hg hgrp he hle
    have hnl : ¬ now < e.2 := not_lt.mpr hle
    simp [Cacher.get, Cacher.delete, hg, hgrp, he, hnl]
  · intro g hg hnone
    exact ⟨by simp [Cacher.get, hg, hnone], by simp [Cacher.delete, hg, hnone]⟩

/-- Witness for the amended C8: the three arms at concrete caches — an
absent key, an expired entry read at clock 2, and a post-sweep dangling
key. -/
theorem notfound_payload_witness :
    ((Cacher.init ℕ ℕ (some 1) 0).1.get 0 9).1 = Except.error (CacheErr.keyErr 9) ∧
    ((((Cacher.init ℕ ℕ (some 1) 0).1.set 0 5 7 1).get 2 5).1
      = Except.error (CacheErr.keyErr 5)) ∧
    (((((Cacher.init ℕ ℕ (some 1) 0).1.set 0 5 7 1).cleanup 2).1.get 2 5).1
      = Except.error (CacheErr.groupErr (some 1))) := by
  refine ⟨((notfound_payload (Cacher.init ℕ ℕ (some 1) 0).1 0 9).1 ?_).1,
    (notfound_payload ((Cacher.init ℕ ℕ (some 1) 0).1.set 0 5 7 1) 2 5).2.1
      (some 1) [(5, (7, 1))] (7, 1) ?_ ?_ ?_ ?_,
    ((notfound_payload ((((Cacher.init ℕ ℕ (some 1) 0).1.set 0 5 7 1).cleanup 2).1) 2 5).2.2
      (some 1) ?_ ?_).1⟩ <;>
    simp [Cacher.init, Cacher.set, Cacher.cleanup, periodTruthy, groupNum, intRange,
      insertA, eraseA, lookupA, (by decide : List.range 2 = [0, 1])]

end CacherSpec
